import Mathlib

/-!
Shallow embedding of the Fyrox animation value model (`src/animation/value.rs`)
and the terrain editing commands (`editor/src/scene/commands/terrain.rs`).

Modelling conventions:
* `f32` components are embedded as `ℚ` (exact arithmetic; the claims under
  study are structural — shape matching, skipping, ordering, ownership — and
  do not depend on floating-point rounding).
* Rust panics (`assert_eq!`, `unwrap`) are embedded as `Except Unit` /
  `Option` failures (`.error ()` / `none` means the call panics).
* In-place mutation (`&mut self`) is embedded as explicit state passing:
  a mutating method returns the new value of `self`.
-/

namespace Fyrox

/-- Vector2 of f32 components, embedded over ℚ. -/
structure Vec2 where
  x : ℚ
  y : ℚ
deriving DecidableEq, Repr

/-- Vector3 of f32 components, embedded over ℚ. -/
structure Vec3 where
  x : ℚ
  y : ℚ
  z : ℚ
deriving DecidableEq, Repr

/-- Vector4 of f32 components, embedded over ℚ. -/
structure Vec4 where
  x : ℚ
  y : ℚ
  z : ℚ
  w : ℚ
deriving DecidableEq, Repr

/-- Quaternion coefficients (i, j, k, w) of f32 components, embedded over ℚ. -/
structure Quat where
  i : ℚ
  j : ℚ
  k : ℚ
  w : ℚ
deriving DecidableEq, Repr

/-- fyrox-core `math::lerpf`: `a + (b - a) * t`. -/
def lerpf (a b t : ℚ) : ℚ := a + (b - a) * t

/-- nalgebra componentwise scaling of a Vector2. -/
def Vec2.scale (v : Vec2) (s : ℚ) : Vec2 := ⟨v.x * s, v.y * s⟩

/-- nalgebra componentwise scaling of a Vector3. -/
def Vec3.scale (v : Vec3) (s : ℚ) : Vec3 := ⟨v.x * s, v.y * s, v.z * s⟩

/-- nalgebra componentwise scaling of a Vector4. -/
def Vec4.scale (v : Vec4) (s : ℚ) : Vec4 := ⟨v.x * s, v.y * s, v.z * s, v.w * s⟩

/-- Componentwise addition (`*a += ...` in `blend_with`). -/
def Vec2.add (a b : Vec2) : Vec2 := ⟨a.x + b.x, a.y + b.y⟩

/-- Componentwise addition (`*a += ...` in `blend_with`). -/
def Vec3.add (a b : Vec3) : Vec3 := ⟨a.x + b.x, a.y + b.y, a.z + b.z⟩

/-- Componentwise addition (`*a += ...` in `blend_with`). -/
def Vec4.add (a b : Vec4) : Vec4 := ⟨a.x + b.x, a.y + b.y, a.z + b.z, a.w + b.w⟩

/-- nalgebra `Vector2::lerp`, componentwise linear interpolation. -/
def Vec2.lerp (a b : Vec2) (t : ℚ) : Vec2 := ⟨lerpf a.x b.x t, lerpf a.y b.y t⟩

/-- nalgebra `Vector3::lerp`, componentwise linear interpolation. -/
def Vec3.lerp (a b : Vec3) (t : ℚ) : Vec3 :=
  ⟨lerpf a.x b.x t, lerpf a.y b.y t, lerpf a.z b.z t⟩

/-- nalgebra `Vector4::lerp`, componentwise linear interpolation. -/
def Vec4.lerp (a b : Vec4) (t : ℚ) : Vec4 :=
  ⟨lerpf a.x b.x t, lerpf a.y b.y t, lerpf a.z b.z t, lerpf a.w b.w t⟩

/-- nalgebra `UnitQuaternion::nlerp`: componentwise lerp of the coefficients
followed by renormalization. The normalizing factor `1 / ‖·‖` is irrational in
general, so this ℚ-embedding carries the un-normalized representative; no
theorem below inspects the numeric value of an `nlerp` result (they only
compare results of the same embedded function, or check which variant a
result carries), so the choice of representative is immaterial to every
statement in this file. -/
def Quat.nlerp (a b : Quat) (t : ℚ) : Quat :=
  ⟨lerpf a.i b.i t, lerpf a.j b.j t, lerpf a.k b.k t, lerpf a.w b.w t⟩

/-- An actual type of a property value (`ValueType` in `value.rs`). -/
inductive ValueType
  | Bool
  | F32
  | F64
  | U64
  | I64
  | U32
  | I32
  | U16
  | I16
  | U8
  | I8
  | Vector2Bool
  | Vector2F32
  | Vector2F64
  | Vector2U64
  | Vector2I64
  | Vector2U32
  | Vector2I32
  | Vector2U16
  | Vector2I16
  | Vector2U8
  | Vector2I8
  | Vector3Bool
  | Vector3F32
  | Vector3F64
  | Vector3U64
  | Vector3I64
  | Vector3U32
  | Vector3I32
  | Vector3U16
  | Vector3I16
  | Vector3U8
  | Vector3I8
  | Vector4Bool
  | Vector4F32
  | Vector4F64
  | Vector4U64
  | Vector4I64
  | Vector4U32
  | Vector4I32
  | Vector4U16
  | Vector4I16
  | Vector4U8
  | Vector4I8
  | UnitQuaternionF32
  | UnitQuaternionF64
deriving DecidableEq, Repr, Fintype

/-- Shape classification used by the spec: scalar vs 2/3/4-component vector
vs quaternion. -/
inductive Shape
  | scalar
  | vec2
  | vec3
  | vec4
  | quat
deriving DecidableEq, Repr

/-- The shape of a `ValueType` tag. -/
def ValueType.shape : ValueType → Shape
  | .Bool | .F32 | .F64 | .U64 | .I64 | .U32 | .I32 | .U16 | .I16 | .U8 | .I8 => .scalar
  | .Vector2Bool | .Vector2F32 | .Vector2F64 | .Vector2U64 | .Vector2I64
  | .Vector2U32 | .Vector2I32 | .Vector2U16 | .Vector2I16 | .Vector2U8
  | .Vector2I8 => .vec2
  | .Vector3Bool | .Vector3F32 | .Vector3F64 | .Vector3U64 | .Vector3I64
  | .Vector3U32 | .Vector3I32 | .Vector3U16 | .Vector3I16 | .Vector3U8
  | .Vector3I8 => .vec3
  | .Vector4Bool | .Vector4F32 | .Vector4F64 | .Vector4U64 | .Vector4I64
  | .Vector4U32 | .Vector4I32 | .Vector4U16 | .Vector4I16 | .Vector4U8
  | .Vector4I8 => .vec4
  | .UnitQuaternionF32 | .UnitQuaternionF64 => .quat

/-- A real value produced by an animation track (`TrackValue` in `value.rs`). -/
inductive TrackValue
  | Real (v : ℚ)
  | Vector2 (v : Vec2)
  | Vector3 (v : Vec3)
  | Vector4 (v : Vec4)
  | UnitQuaternion (v : Quat)
deriving DecidableEq, Repr

/-- The variant shape of a `TrackValue`. -/
def TrackValue.shape : TrackValue → Shape
  | .Real _ => .scalar
  | .Vector2 _ => .vec2
  | .Vector3 _ => .vec3
  | .Vector4 _ => .vec4
  | .UnitQuaternion _ => .quat

/-- Source `TrackValue::weighted_clone`. -/
def TrackValue.weighted_clone : TrackValue → ℚ → TrackValue
  | .Real v, weight => .Real (v * weight)
  | .Vector2 v, weight => .Vector2 (v.scale weight)
  | .Vector3 v, weight => .Vector3 (v.scale weight)
  | .Vector4 v, weight => .Vector4 (v.scale weight)
  | .UnitQuaternion v, _ => .UnitQuaternion v

/-- Source `TrackValue::blend_with` (in-place in Rust; returns the new `self` here).
The final catch-all arm is the source's `_ => ()` no-op. -/
def TrackValue.blend_with : TrackValue → TrackValue → ℚ → TrackValue
  | .Real a, .Real b, weight => .Real (a + b * weight)
  | .Vector2 a, .Vector2 b, weight => .Vector2 (a.add (b.scale weight))
  | .Vector3 a, .Vector3 b, weight => .Vector3 (a.add (b.scale weight))
  | .Vector4 a, .Vector4 b, weight => .Vector4 (a.add (b.scale weight))
  | .UnitQuaternion a, .UnitQuaternion b, weight => .UnitQuaternion (a.nlerp b weight)
  | a, _, _ => a

/-- Source `TrackValue::interpolate`: `None` when the variants differ. -/
def TrackValue.interpolate : TrackValue → TrackValue → ℚ → Option TrackValue
  | .Real a, .Real b, t => some (.Real (lerpf a b t))
  | .Vector2 a, .Vector2 b, t => some (.Vector2 (a.lerp b t))
  | .Vector3 a, .Vector3 b, t => some (.Vector3 (a.lerp b t))
  | .Vector4 a, .Vector4 b, t => some (.Vector4 (a.lerp b t))
  | .UnitQuaternion a, .UnitQuaternion b, t => some (.UnitQuaternion (a.nlerp b t))
  | _, _, _ => none

/-- The scalar machine kinds appearing in `ValueType`. -/
inductive ScalarKind
  | kBool | kF32 | kF64 | kU64 | kI64 | kU32 | kI32 | kU16 | kI16 | kU8 | kI8
deriving DecidableEq, Repr

/-- A concrete machine scalar produced by `numeric_type_cast` (one component of
the boxed `dyn Reflect` value). Unsigned integers carry a `ℕ`, signed a `ℤ`;
`f32`/`f64` stay exact as `ℚ`. -/
inductive ScalarVal
  | bool (v : Bool)
  | f32 (v : ℚ)
  | f64 (v : ℚ)
  | u64 (v : ℕ)
  | i64 (v : ℤ)
  | u32 (v : ℕ)
  | i32 (v : ℤ)
  | u16 (v : ℕ)
  | i16 (v : ℤ)
  | u8 (v : ℕ)
  | i8 (v : ℤ)
deriving DecidableEq, Repr

/-- The machine kind of a `ScalarVal`. -/
def ScalarVal.kind : ScalarVal → ScalarKind
  | .bool _ => .kBool
  | .f32 _ => .kF32
  | .f64 _ => .kF64
  | .u64 _ => .kU64
  | .i64 _ => .kI64
  | .u32 _ => .kU32
  | .i32 _ => .kI32
  | .u16 _ => .kU16
  | .i16 _ => .kI16
  | .u8 _ => .kU8
  | .i8 _ => .kI8

/-- Truncation towards zero, the rounding used by Rust `as` casts from float
to integer. -/
def truncQ (q : ℚ) : ℤ := if q < 0 then Int.ceil q else Int.floor q

/-- Saturating cast: Rust `f32 as <int>` clamps out-of-range values to the
target type's bounds (and truncates towards zero in range). `NaN` (which maps
to 0) has no counterpart in the exact ℚ embedding. -/
def satCast (lo hi : ℤ) (q : ℚ) : ℤ := max lo (min hi (truncQ q))

/-- Rust `f32 as u64`. -/
def toU64 (q : ℚ) : ℕ := (satCast 0 (2 ^ 64 - 1) q).toNat

/-- Rust `f32 as i64`. -/
def toI64 (q : ℚ) : ℤ := satCast (-(2 ^ 63)) (2 ^ 63 - 1) q

/-- Rust `f32 as u32`. -/
def toU32 (q : ℚ) : ℕ := (satCast 0 (2 ^ 32 - 1) q).toNat

/-- Rust `f32 as i32`. -/
def toI32 (q : ℚ) : ℤ := satCast (-(2 ^ 31)) (2 ^ 31 - 1) q

/-- Rust `f32 as u16`. -/
def toU16 (q : ℚ) : ℕ := (satCast 0 (2 ^ 16 - 1) q).toNat

/-- Rust `f32 as i16`. -/
def toI16 (q : ℚ) : ℤ := satCast (-(2 ^ 15)) (2 ^ 15 - 1) q

/-- Rust `f32 as u8`. -/
def toU8 (q : ℚ) : ℕ := (satCast 0 (2 ^ 8 - 1) q).toNat

/-- Rust `f32 as i8`. -/
def toI8 (q : ℚ) : ℤ := satCast (-(2 ^ 7)) (2 ^ 7 - 1) q

/-- The boxed `dyn Reflect` value produced by `numeric_type_cast`: a concrete
machine scalar, vector of scalars, or unit quaternion. -/
inductive CastValue
  | scalar (v : ScalarVal)
  | vector2 (x y : ScalarVal)
  | vector3 (x y z : ScalarVal)
  | vector4 (x y z w : ScalarVal)
  | unitQuaternionF32 (q : Quat)
  | unitQuaternionF64 (q : Quat)
deriving DecidableEq, Repr

/-- Helper `convert_vec2::<T>` of `numeric_type_cast`, with the target-kind
conversion passed explicitly. -/
def convert_vec2 (f : ℚ → ScalarVal) (v : Vec2) : CastValue :=
  .vector2 (f v.x) (f v.y)

/-- Helper `convert_vec3::<T>` of `numeric_type_cast`. -/
def convert_vec3 (f : ℚ → ScalarVal) (v : Vec3) : CastValue :=
  .vector3 (f v.x) (f v.y) (f v.z)

/-- Helper `convert_vec4::<T>` of `numeric_type_cast`. -/
def convert_vec4 (f : ℚ → ScalarVal) (v : Vec4) : CastValue :=
  .vector4 (f v.x) (f v.y) (f v.z) (f v.w)

/-- Source `TrackValue::numeric_type_cast`, arm for the `Real` variant. -/
def castReal (real : ℚ) : ValueType → Option CastValue
  | .Bool => some (.scalar (.bool (decide (real ≠ 0))))
  | .F32 => some (.scalar (.f32 real))
  | .F64 => some (.scalar (.f64 real))
  | .U64 => some (.scalar (.u64 (toU64 real)))
  | .I64 => some (.scalar (.i64 (toI64 real)))
  | .U32 => some (.scalar (.u32 (toU32 real)))
  | .I32 => some (.scalar (.i32 (toI32 real)))
  | .U16 => some (.scalar (.u16 (toU16 real)))
  | .I16 => some (.scalar (.i16 (toI16 real)))
  | .U8 => some (.scalar (.u8 (toU8 real)))
  | .I8 => some (.scalar (.i8 (toI8 real)))
  | _ => none

/-- Source `TrackValue::numeric_type_cast`, arm for the `Vector2` variant. -/
def castVec2 (vec2 : Vec2) : ValueType → Option CastValue
  | .Vector2Bool =>
    some (.vector2 (.bool (decide (vec2.x ≠ 0))) (.bool (decide (vec2.y ≠ 0))))
  | .Vector2F32 => some (convert_vec2 (fun q => .f32 q) vec2)
  | .Vector2F64 => some (convert_vec2 (fun q => .f64 q) vec2)
  | .Vector2U64 => some (convert_vec2 (fun q => .u64 (toU64 q)) vec2)
  | .Vector2I64 => some (convert_vec2 (fun q => .i64 (toI64 q)) vec2)
  | .Vector2U32 => some (convert_vec2 (fun q => .u32 (toU32 q)) vec2)
  | .Vector2I32 => some (convert_vec2 (fun q => .i32 (toI32 q)) vec2)
  | .Vector2U16 => some (convert_vec2 (fun q => .u16 (toU16 q)) vec2)
  | .Vector2I16 => some (convert_vec2 (fun q => .i16 (toI16 q)) vec2)
  | .Vector2U8 => some (convert_vec2 (fun q => .u8 (toU8 q)) vec2)
  | .Vector2I8 => some (convert_vec2 (fun q => .i8 (toI8 q)) vec2)
  | _ => none

/-- Source `TrackValue::numeric_type_cast`, arm for the `Vector3` variant. -/
def castVec3 (vec3 : Vec3) : ValueType → Option CastValue
  | .Vector3Bool =>
    some (.vector3 (.bool (decide (vec3.x ≠ 0))) (.bool (decide (vec3.y ≠ 0)))
      (.bool (decide (vec3.z ≠ 0))))
  | .Vector3F32 => some (convert_vec3 (fun q => .f32 q) vec3)
  | .Vector3F64 => some (convert_vec3 (fun q => .f64 q) vec3)
  | .Vector3U64 => some (convert_vec3 (fun q => .u64 (toU64 q)) vec3)
  | .Vector3I64 => some (convert_vec3 (fun q => .i64 (toI64 q)) vec3)
  | .Vector3U32 => some (convert_vec3 (fun q => .u32 (toU32 q)) vec3)
  | .Vector3I32 => some (convert_vec3 (fun q => .i32 (toI32 q)) vec3)
  | .Vector3U16 => some (convert_vec3 (fun q => .u16 (toU16 q)) vec3)
  | .Vector3I16 => some (convert_vec3 (fun q => .i16 (toI16 q)) vec3)
  | .Vector3U8 => some (convert_vec3 (fun q => .u8 (toU8 q)) vec3)
  | .Vector3I8 => some (convert_vec3 (fun q => .i8 (toI8 q)) vec3)
  | _ => none

/-- Source `TrackValue::numeric_type_cast`, arm for the `Vector4` variant. -/
def castVec4 (vec4 : Vec4) : ValueType → Option CastValue
  | .Vector4Bool =>
    some (.vector4 (.bool (decide (vec4.x ≠ 0))) (.bool (decide (vec4.y ≠ 0)))
      (.bool (decide (vec4.z ≠ 0))) (.bool (decide (vec4.w ≠ 0))))
  | .Vector4F32 => some (convert_vec4 (fun q => .f32 q) vec4)
  | .Vector4F64 => some (convert_vec4 (fun q => .f64 q) vec4)
  | .Vector4U64 => some (convert_vec4 (fun q => .u64 (toU64 q)) vec4)
  | .Vector4I64 => some (convert_vec4 (fun q => .i64 (toI64 q)) vec4)
  | .Vector4U32 => some (convert_vec4 (fun q => .u32 (toU32 q)) vec4)
  | .Vector4I32 => some (convert_vec4 (fun q => .i32 (toI32 q)) vec4)
  | .Vector4U16 => some (convert_vec4 (fun q => .u16 (toU16 q)) vec4)
  | .Vector4I16 => some (convert_vec4 (fun q => .i16 (toI16 q)) vec4)
  | .Vector4U8 => some (convert_vec4 (fun q => .u8 (toU8 q)) vec4)
  | .Vector4I8 => some (convert_vec4 (fun q => .i8 (toI8 q)) vec4)
  | _ => none

/-- Source `TrackValue::numeric_type_cast`, arm for the `UnitQuaternion` variant
(the `f32 → f64` coefficient cast is exact, hence the identity on ℚ). -/
def castQuat (quat : Quat) : ValueType → Option CastValue
  | .UnitQuaternionF32 => some (.unitQuaternionF32 quat)
  | .UnitQuaternionF64 => some (.unitQuaternionF64 quat)
  | _ => none

/-- Source `TrackValue::numeric_type_cast`. -/
def TrackValue.numeric_type_cast : TrackValue → ValueType → Option CastValue
  | .Real real, value_type => castReal real value_type
  | .Vector2 vec2, value_type => castVec2 vec2 value_type
  | .Vector3 vec3, value_type => castVec3 vec3 value_type
  | .Vector4 vec4, value_type => castVec4 vec4 value_type
  | .UnitQuaternion quat, value_type => castQuat quat value_type

/-- Source `ValueBinding` in `value.rs`: which property of a node a track value
targets. -/
inductive ValueBinding
  | Position
  | Scale
  | Rotation
  | Property (name : String) (value_type : ValueType)
deriving DecidableEq, Repr

/-- Source `BoundValue` in `value.rs`: a (binding, value) pair. -/
structure BoundValue where
  binding : ValueBinding
  value : TrackValue
deriving DecidableEq, Repr

/-- Source `BoundValue::weighted_clone`. -/
def BoundValue.weighted_clone (self : BoundValue) (weight : ℚ) : BoundValue :=
  { binding := self.binding, value := self.value.weighted_clone weight }

/-- Source `BoundValue::blend_with`: `assert_eq!(self.binding, other.binding)` first
(`.error ()` embeds the assertion panic), then delegate to
`TrackValue::blend_with`. -/
def BoundValue.blend_with (self other : BoundValue) (weight : ℚ) :
    Except Unit BoundValue :=
  if self.binding = other.binding then
    .ok { self with value := self.value.blend_with other.value weight }
  else
    .error ()

/-- Source `BoundValue::interpolate`: `assert_eq!(self.binding, other.binding)` first
(`.error ()` embeds the assertion panic), then delegate to
`TrackValue::interpolate` and rewrap the optional result. -/
def BoundValue.interpolate (self other : BoundValue) (t : ℚ) :
    Except Unit (Option BoundValue) :=
  if self.binding = other.binding then
    .ok ((self.value.interpolate other.value t).map fun value =>
      { binding := self.binding, value := value })
  else
    .error ()

/-- Source `BoundValueCollection` in `value.rs`. -/
structure BoundValueCollection where
  values : List BoundValue
deriving DecidableEq, Repr

/-- Source `BoundValueCollection::weighted_clone`. -/
def BoundValueCollection.weighted_clone (self : BoundValueCollection) (weight : ℚ) :
    BoundValueCollection :=
  { values := self.values.map fun v => v.weighted_clone weight }

/-- Loop body of `BoundValueCollection::blend_with` over the remaining entries
of `self`; `none` embeds a panic escaping the loop. -/
def blendGo (other : BoundValueCollection) (weight : ℚ) :
    List BoundValue → Option (List BoundValue)
  | [] => some []
  | v :: rest =>
    match other.values.find? (fun o => o.binding = v.binding) with
    | some other_value =>
      match v.blend_with other_value weight with
      | .error _ => none
      | .ok v' => (blendGo other weight rest).map (fun l => v' :: l)
    | none => (blendGo other weight rest).map (fun l => v :: l)

/-- Source `BoundValueCollection::blend_with` (in-place in Rust; returns the new
`self` here, `none` embedding a panic). -/
def BoundValueCollection.blend_with (self other : BoundValueCollection)
    (weight : ℚ) : Option BoundValueCollection :=
  (blendGo other weight self.values).map BoundValueCollection.mk

/-- Loop body of `BoundValueCollection::interpolate` over the remaining
entries of `self`; `none` embeds a panic (assertion failure inside
`BoundValue::interpolate`, or the `.unwrap()` on a cross-variant `None`). -/
def interpGo (other : BoundValueCollection) (t : ℚ) :
    List BoundValue → Option (List BoundValue)
  | [] => some []
  | v :: rest =>
    match other.values.find? (fun o => o.binding = v.binding) with
    | some other_value =>
      match v.interpolate other_value t with
      | .error _ => none
      | .ok none => none
      | .ok (some bv) => (interpGo other t rest).map (fun l => bv :: l)
    | none => interpGo other t rest

/-- Source `BoundValueCollection::interpolate`; `none` embeds a panic. -/
def BoundValueCollection.interpolate (self other : BoundValueCollection)
    (t : ℚ) : Option BoundValueCollection :=
  (interpGo other t self.values).map BoundValueCollection.mk

/-- Source `SetFieldByPathError` of the reflection subsystem (only the two
constructors `apply` distinguishes). -/
inductive SetFieldByPathError
  | InvalidPath (reason : String)
  | InvalidValue
deriving DecidableEq, Repr

/-- One reflectively settable field of a node: its path, declared machine
type, and current value. -/
structure PropField where
  path : String
  value_type : ValueType
  value : CastValue
deriving DecidableEq, Repr

/-- Modelled from the spec: the scene node targeted by
`BoundValueCollection::apply`. The node sources (`scene/node/mod.rs`) only
expose the type-erased wrapper; the local transform (position/scale/rotation
slots) and the reflectively reachable property fields live outside the given
sources, so they are modelled from the spec's data-flow description. -/
structure Node where
  position : Vec3
  scale : Vec3
  rotation : Quat
  props : List PropField
deriving DecidableEq, Repr

/-- Source `LocalTransform::set_position` reached through `local_transform_mut`. -/
def Node.set_position (n : Node) (v : Vec3) : Node := { n with position := v }

/-- Source `LocalTransform::set_scale` reached through `local_transform_mut`. -/
def Node.set_scale (n : Node) (v : Vec3) : Node := { n with scale := v }

/-- Source `LocalTransform::set_rotation` reached through `local_transform_mut`. -/
def Node.set_rotation (n : Node) (v : Quat) : Node := { n with rotation := v }

/-- The `ValueType` tag a scalar `ScalarVal` carries. -/
def ScalarKind.scalarTag : ScalarKind → ValueType
  | .kBool => .Bool
  | .kF32 => .F32
  | .kF64 => .F64
  | .kU64 => .U64
  | .kI64 => .I64
  | .kU32 => .U32
  | .kI32 => .I32
  | .kU16 => .U16
  | .kI16 => .I16
  | .kU8 => .U8
  | .kI8 => .I8

/-- The `ValueType` tag of a `Vector2<T>` with component kind `k`. -/
def ScalarKind.vec2Tag : ScalarKind → ValueType
  | .kBool => .Vector2Bool
  | .kF32 => .Vector2F32
  | .kF64 => .Vector2F64
  | .kU64 => .Vector2U64
  | .kI64 => .Vector2I64
  | .kU32 => .Vector2U32
  | .kI32 => .Vector2I32
  | .kU16 => .Vector2U16
  | .kI16 => .Vector2I16
  | .kU8 => .Vector2U8
  | .kI8 => .Vector2I8

/-- The `ValueType` tag of a `Vector3<T>` with component kind `k`. -/
def ScalarKind.vec3Tag : ScalarKind → ValueType
  | .kBool => .Vector3Bool
  | .kF32 => .Vector3F32
  | .kF64 => .Vector3F64
  | .kU64 => .Vector3U64
  | .kI64 => .Vector3I64
  | .kU32 => .Vector3U32
  | .kI32 => .Vector3I32
  | .kU16 => .Vector3U16
  | .kI16 => .Vector3I16
  | .kU8 => .Vector3U8
  | .kI8 => .Vector3I8

/-- The `ValueType` tag of a `Vector4<T>` with component kind `k`. -/
def ScalarKind.vec4Tag : ScalarKind → ValueType
  | .kBool => .Vector4Bool
  | .kF32 => .Vector4F32
  | .kF64 => .Vector4F64
  | .kU64 => .Vector4U64
  | .kI64 => .Vector4I64
  | .kU32 => .Vector4U32
  | .kI32 => .Vector4I32
  | .kU16 => .Vector4U16
  | .kI16 => .Vector4I16
  | .kU8 => .Vector4U8
  | .kI8 => .Vector4I8

/-- The concrete machine type (`ValueType` tag) of a boxed cast result;
`none` for a heterogeneous vector, which `numeric_type_cast` never builds. -/
def CastValue.typeTag : CastValue → Option ValueType
  | .scalar s => some s.kind.scalarTag
  | .vector2 x y => if x.kind = y.kind then some x.kind.vec2Tag else none
  | .vector3 x y z =>
    if x.kind = y.kind ∧ y.kind = z.kind then some x.kind.vec3Tag else none
  | .vector4 x y z w =>
    if x.kind = y.kind ∧ y.kind = z.kind ∧ z.kind = w.kind then
      some x.kind.vec4Tag
    else none
  | .unitQuaternionF32 _ => some .UnitQuaternionF32
  | .unitQuaternionF64 _ => some .UnitQuaternionF64

/-- Modelled from the spec: the generic reflective property-path setter
(`Reflect::set_field_by_path`, outside the given sources). Per the spec's
interface contract, it takes a path string and a boxed value whose concrete
machine type must match the field's declared type, and reports success or one
of InvalidPath(reason) / InvalidValue; the field graph is modelled as the
node's flat list of reflectively settable fields keyed by full path. -/
def setFieldByPath (props : List PropField) (path : String) (value : CastValue) :
    Except SetFieldByPathError (List PropField) :=
  match props.find? (fun p => p.path = path) with
  | none => .error (.InvalidPath "no field at path")
  | some p =>
    if value.typeTag = some p.value_type then
      .ok (props.map fun q =>
        if q.path = path then { q with value := value } else q)
    else
      .error .InvalidValue

/-- Body of the `for bound_value in self.values.iter()` loop of
`BoundValueCollection::apply` for a single entry: returns the updated node and
the `Log::err` messages emitted for this entry. Mirrors `value.rs:401-461`:
Position/Scale need a `Vector3` variant, Rotation a `UnitQuaternion` variant
(else log and skip); a `Property` binding first runs `numeric_type_cast` (a
`None` cast result skips the entry with no log — the `if let Some(casted)` has
no `else` arm), then writes through the reflective setter, logging either
failure kind. The inner `casted.take().unwrap()` is on a freshly created
`Some` and cannot panic, so `apply` is a total function. -/
def applyOne (bound_value : BoundValue) (node_ref : Node) : Node × List String :=
  match bound_value.binding with
  | .Position =>
    match bound_value.value with
    | .Vector3 v => (node_ref.set_position v, [])
    | _ => (node_ref, ["Unable to apply position, because underlying type is not Vector3!"])
  | .Scale =>
    match bound_value.value with
    | .Vector3 v => (node_ref.set_scale v, [])
    | _ => (node_ref, ["Unable to apply scaling, because underlying type is not Vector3!"])
  | .Rotation =>
    match bound_value.value with
    | .UnitQuaternion v => (node_ref.set_rotation v, [])
    | _ => (node_ref, ["Unable to apply rotation, because underlying type is not UnitQuaternion!"])
  | .Property property_name value_type =>
    match bound_value.value.numeric_type_cast value_type with
    | some casted =>
      match setFieldByPath node_ref.props property_name casted with
      | .ok props' => ({ node_ref with props := props' }, [])
      | .error (.InvalidPath reason) =>
        (node_ref,
          ["Failed to set property " ++ property_name ++ "! Invalid path: " ++ reason])
      | .error .InvalidValue =>
        (node_ref, ["Failed to set property " ++ property_name ++ "! Types mismatch!"])
    | none => (node_ref, [])

/-- The `for` loop of `BoundValueCollection::apply` over the remaining
entries, accumulating the log in emission order. -/
def applyGo : List BoundValue → Node → Node × List String
  | [], node_ref => (node_ref, [])
  | v :: rest, node_ref =>
    let r := applyOne v node_ref
    let q := applyGo rest r.1
    (q.1, r.2 ++ q.2)

/-- Source `BoundValueCollection::apply` (the node is the single mutable target; the
emitted `Log::err` messages are returned alongside). -/
def BoundValueCollection.apply (self : BoundValueCollection) (node_ref : Node) :
    Node × List String :=
  applyGo self.values node_ref

/-- Whether a single entry of `apply` takes its success path on the given
node (Position/Scale see a Vector3, Rotation a UnitQuaternion, a Property
binding casts successfully and the reflective setter succeeds). -/
def applySucceeds (bound_value : BoundValue) (node_ref : Node) : Bool :=
  match bound_value.binding with
  | .Position | .Scale =>
    match bound_value.value with
    | .Vector3 _ => true
    | _ => false
  | .Rotation =>
    match bound_value.value with
    | .UnitQuaternion _ => true
    | _ => false
  | .Property property_name value_type =>
    match bound_value.value.numeric_type_cast value_type with
    | some casted =>
      match setFieldByPath node_ref.props property_name casted with
      | .ok _ => true
      | .error _ => false
    | none => false

/-- Whether an entry fails already at `numeric_type_cast` (the silent-skip
path of `apply`: `if let Some(casted)` with no `else`). -/
def castFailure (bound_value : BoundValue) : Bool :=
  match bound_value.binding with
  | .Property _ value_type => (bound_value.value.numeric_type_cast value_type).isNone
  | _ => false

/-- Modelled from the spec: a terrain chunk owns its heightmap, a flat array
of 32-bit floats (`Chunk::set_heightmap` lives outside the given sources). -/
structure Chunk where
  heightmap : List ℚ
deriving DecidableEq, Repr

/-- Modelled from the spec: `Chunk::set_heightmap` replaces the chunk's
heightmap buffer. -/
def Chunk.set_heightmap (_c : Chunk) (h : List ℚ) : Chunk := { heightmap := h }

/-- Terrain `Layer` as constructed in `terrain.rs` (`material` is the
out-of-scope material resource, kept as an opaque identifier). -/
structure Layer where
  material : ℕ
  mask_property_name : String
deriving DecidableEq, Repr

/-- Opaque mask texture handle (per-chunk mask buffer of a layer). -/
abbrev Texture := ℕ

/-- Modelled from the spec: the terrain node behind
`context.scene.graph[self.terrain].as_terrain_mut()` — an ordered list of
layers, each with its per-chunk mask buffers, plus the chunk list. -/
structure Terrain where
  layers : List (Layer × List Texture)
  chunks : List Chunk
deriving DecidableEq, Repr

/-- Modelled from the spec: `Terrain::add_layer` appends a layer and its mask
buffers to the terrain's layer list. -/
def Terrain.add_layer (t : Terrain) (layer : Layer) (masks : List Texture) : Terrain :=
  { t with layers := t.layers ++ [(layer, masks)] }

/-- Modelled from the spec: `Terrain::pop_layer` removes the last layer and
returns it together with its mask buffers; `none` when there is no layer
(the caller's `.unwrap()` then panics). -/
def Terrain.pop_layer (t : Terrain) : Option ((Layer × List Texture) × Terrain) :=
  match t.layers.getLast? with
  | none => none
  | some lm => some (lm, { t with layers := t.layers.dropLast })

/-- Modelled from the spec: the out-of-scope default material factory used by
`AddTerrainLayerCommand::new`. -/
def create_terrain_layer_material : ℕ := 0

/-- Source `AddTerrainLayerCommand` state (`terrain.rs:8-13`; the terrain handle is
implicit — the terrain itself is passed to `execute`/`revert`). -/
structure AddTerrainLayerCommand where
  layer : Option Layer
  masks : List Texture
deriving DecidableEq, Repr

/-- Source `AddTerrainLayerCommand::new`. -/
def AddTerrainLayerCommand.new : AddTerrainLayerCommand :=
  { layer := some { material := create_terrain_layer_material,
                    mask_property_name := "maskTexture" },
    masks := [] }

/-- Source `AddTerrainLayerCommand::execute`: `self.layer.take().unwrap()` (panic —
`none` — when the command holds no layer) and `std::mem::take(&mut self.masks)`
(leaves the command's mask list empty), then `terrain.add_layer`. -/
def AddTerrainLayerCommand.execute (cmd : AddTerrainLayerCommand) (t : Terrain) :
    Option (AddTerrainLayerCommand × Terrain) :=
  cmd.layer.map fun l =>
    ({ layer := none, masks := [] }, t.add_layer l cmd.masks)

/-- Source `AddTerrainLayerCommand::revert`: `terrain.pop_layer().unwrap()` (panic —
`none` — when the terrain has no layer), storing the layer and masks back in
the command. -/
def AddTerrainLayerCommand.revert (cmd : AddTerrainLayerCommand) (t : Terrain) :
    Option (AddTerrainLayerCommand × Terrain) :=
  t.pop_layer.map fun lmt =>
    ({ cmd with layer := some lmt.1.1, masks := lmt.1.2 }, lmt.2)

/-- Strict execute/revert alternation of `AddTerrainLayerCommand` starting
from the unexecuted state: step `n+1` is `execute` when `n` is even, `revert`
when `n` is odd; `none` embeds a panic at some step. -/
def altRun (s : AddTerrainLayerCommand × Terrain) :
    ℕ → Option (AddTerrainLayerCommand × Terrain)
  | 0 => some s
  | n + 1 =>
    (altRun s n).bind fun ct =>
      if n % 2 = 0 then ct.1.execute ct.2 else ct.1.revert ct.2

/-- Source `ModifyTerrainHeightCommand` state (`terrain.rs:89-97`). -/
structure ModifyTerrainHeightCommand where
  old_heightmaps : List (List ℚ)
  new_heightmaps : List (List ℚ)
deriving DecidableEq, Repr

/-- The zipped loop of `ModifyTerrainHeightCommand::swap`: iterate over
`chunks.zip(old.zip(new))` (stopping at the shortest of the three), installing
each `new` buffer into its chunk via `set_heightmap` and then
`std::mem::swap`-ping the `old`/`new` slots; elements beyond the zipped length
are left untouched. -/
def swapZip : List Chunk → List (List ℚ) → List (List ℚ) →
    List Chunk × List (List ℚ) × List (List ℚ)
  | c :: cs, o :: os, n :: ns =>
    let r := swapZip cs os ns
    (c.set_heightmap n :: r.1, n :: r.2.1, o :: r.2.2)
  | cs, os, ns => (cs, os, ns)

/-- Source `ModifyTerrainHeightCommand::swap`, acting on the terrain's chunk list and
returning the updated chunks and command. -/
def ModifyTerrainHeightCommand.swap (cmd : ModifyTerrainHeightCommand)
    (chunks : List Chunk) : List Chunk × ModifyTerrainHeightCommand :=
  let r := swapZip chunks cmd.old_heightmaps cmd.new_heightmaps
  (r.1, { old_heightmaps := r.2.1, new_heightmaps := r.2.2 })

/-- Source `ModifyTerrainHeightCommand::execute` — `self.swap(context)`. -/
def ModifyTerrainHeightCommand.execute (cmd : ModifyTerrainHeightCommand)
    (chunks : List Chunk) : List Chunk × ModifyTerrainHeightCommand :=
  cmd.swap chunks

/-- Source `ModifyTerrainHeightCommand::revert` — `self.swap(context)`. -/
def ModifyTerrainHeightCommand.revert (cmd : ModifyTerrainHeightCommand)
    (chunks : List Chunk) : List Chunk × ModifyTerrainHeightCommand :=
  cmd.swap chunks

/-- Decidable form of the precondition of `BoundValueCollection::interpolate`:
any entry of `A` and entry of `B` with equal bindings carry values of the same
variant shape. -/
def sameShapeMatched (A B : BoundValueCollection) : Bool :=
  A.values.all fun a =>
    B.values.all fun b =>
      if a.binding = b.binding then decide (a.value.shape = b.value.shape)
      else true

/-- Concrete entry whose `numeric_type_cast` fails: a `Real` value bound to a
property whose declared tag `Vector2F32` has vector shape. -/
def badCastEntry : BoundValue :=
  { binding := .Property "foo" .Vector2F32, value := .Real 1 }

/-- Concrete node used in counterexamples and witnesses. -/
def nodeA : Node :=
  { position := ⟨0, 0, 0⟩, scale := ⟨1, 1, 1⟩, rotation := ⟨0, 0, 0, 1⟩,
    props := [{ path := "bar", value_type := .F32, value := .scalar (.f32 0) }] }

/-! ## Helper lemmas -/

theorem sameShapeMatched_spec {A B : BoundValueCollection}
    (h : sameShapeMatched A B = true) :
    ∀ a ∈ A.values, ∀ b ∈ B.values,
      a.binding = b.binding → a.value.shape = b.value.shape := by
  intro a ha b hb hab
  simp only [sameShapeMatched, List.all_eq_true] at h
  have := h a ha b hb
  simp [hab] at this
  exact this

theorem interp_isSome_of_shape_eq (a b : TrackValue) (t : ℚ)
    (h : a.shape = b.shape) : (a.interpolate b t).isSome = true := by
  cases a <;> cases b <;>
    simp_all [TrackValue.shape, TrackValue.interpolate]

/-! ## C10: number of `ValueType` variants -/

/-- C10 (counterexample): the `ValueType` enumeration does not have 47
variants — the claimed cardinality is wrong. -/
theorem valueType_card_ne_47 : Fintype.card ValueType ≠ 47 := by decide

/-- C10 (amended): the `ValueType` enumeration of concrete machine
representations has exactly 46 variants (11 scalar kinds, 11 kinds each for
the 2-, 3- and 4-component vectors, and 2 unit-quaternion kinds). -/
theorem valueType_card_eq_46 : Fintype.card ValueType = 46 := by decide

/-! ## C3: cross-variant `TrackValue` operations -/

/-- C3: for every pair of `TrackValue`s whose variants differ and all `t`,
`w`: `interpolate` returns `None` and `blend_with` leaves the left value
unchanged; both are total (no panic) on such pairs — they are plain Lean
functions evaluating to these results. -/
theorem trackValue_cross_variant_noop (a b : TrackValue) (t w : ℚ)
    (h : a.shape ≠ b.shape) :
    a.interpolate b t = none ∧ a.blend_with b w = a := by
  cases a <;> cases b <;>
    simp_all [TrackValue.shape, TrackValue.interpolate, TrackValue.blend_with]

/-- C3 witness at a concrete cross-variant pair. -/
theorem trackValue_cross_variant_noop_witness :
    TrackValue.interpolate (.Real 0) (.Vector2 ⟨0, 0⟩) 0 = none ∧
    TrackValue.blend_with (.Real 0) (.Vector2 ⟨0, 0⟩) 0 = .Real 0 :=
  trackValue_cross_variant_noop (.Real 0) (.Vector2 ⟨0, 0⟩) 0 0 (by decide)

/-! ## C6: `BoundValue` asserts binding equality, then delegates -/

/-- C6: `BoundValue::blend_with` and `BoundValue::interpolate` first assert
that the two bindings are structurally equal and panic (`.error ()`) when they
are not; when the bindings are equal each delegates to the corresponding
`TrackValue` operation. -/
theorem boundValue_assert_then_delegate (a b : BoundValue) (w t : ℚ) :
    (a.binding ≠ b.binding →
      a.blend_with b w = .error () ∧ a.interpolate b t = .error ()) ∧
    (a.binding = b.binding →
      a.blend_with b w = .ok ⟨a.binding, a.value.blend_with b.value w⟩ ∧
      a.interpolate b t =
        .ok ((a.value.interpolate b.value t).map fun v => ⟨a.binding, v⟩)) := by
  constructor
  · intro h
    simp [BoundValue.blend_with, BoundValue.interpolate, h]
  · intro h
    simp [BoundValue.blend_with, BoundValue.interpolate, h]

/-- C6 witness: a mismatched-binding pair panics, an equal-binding pair
delegates to `TrackValue::blend_with`. -/
theorem boundValue_assert_then_delegate_witness :
    BoundValue.blend_with ⟨.Position, .Real 1⟩ ⟨.Scale, .Real 2⟩ 1 = .error () ∧
    BoundValue.blend_with ⟨.Position, .Real 1⟩ ⟨.Position, .Real 2⟩ 1 =
      .ok ⟨.Position, .Real 3⟩ := by
  refine ⟨((boundValue_assert_then_delegate ⟨.Position, .Real 1⟩
    ⟨.Scale, .Real 2⟩ 1 0).1 (by decide)).1, ?_⟩
  rw [((boundValue_assert_then_delegate ⟨.Position, .Real 1⟩
    ⟨.Position, .Real 2⟩ 1 0).2 rfl).1]
  norm_num [TrackValue.blend_with]

/-! ## C9: collection-level `blend_with` -/

theorem blendGo_eq (B : BoundValueCollection) (w : ℚ) (vs : List BoundValue) :
    blendGo B w vs = some (vs.map fun v =>
      match B.values.find? (fun o => o.binding = v.binding) with
      | some o => { binding := v.binding, value := v.value.blend_with o.value w }
      | none => v) := by
  induction vs with
  | nil => rfl
  | cons v rest ih =>
    cases hf : B.values.find? (fun o => o.binding = v.binding) with
    | none => simp [blendGo, hf, ih]
    | some o =>
      have hb : o.binding = v.binding := by
        have := List.find?_some hf
        simpa using this
      simp [blendGo, hf, ih, BoundValue.blend_with, hb]

/-- C9: `BoundValueCollection::blend_with` blends each entry of `A` in place
with the first equal-binding entry of `B` when one exists, leaves every entry
with no counterpart in `B` unchanged, never panics (the internal binding
assertion always holds, so the result is `some _`), and `B` — taken by shared
reference in the source — is not modified (the embedding returns only the new
`A`). -/
theorem collection_blend_with_characterization (A B : BoundValueCollection)
    (w : ℚ) :
    A.blend_with B w = some ⟨A.values.map fun v =>
      match B.values.find? (fun o => o.binding = v.binding) with
      | some o => { binding := v.binding, value := v.value.blend_with o.value w }
      | none => v⟩ := by
  unfold BoundValueCollection.blend_with
  rw [blendGo_eq]
  rfl

/-! ## C2 / C5: collection-level `interpolate` -/

theorem interpGo_eq (B : BoundValueCollection) (t : ℚ) (vs : List BoundValue)
    (h : ∀ a ∈ vs, ∀ b ∈ B.values,
      a.binding = b.binding → a.value.shape = b.value.shape) :
    interpGo B t vs = some (vs.filterMap fun v =>
      (B.values.find? (fun o => o.binding = v.binding)).bind fun o =>
        (v.value.interpolate o.value t).map fun value =>
          { binding := v.binding, value := value }) := by
  induction vs with
  | nil => rfl
  | cons v rest ih =>
    have hrest : ∀ a ∈ rest, ∀ b ∈ B.values,
        a.binding = b.binding → a.value.shape = b.value.shape :=
      fun a ha => h a (List.mem_cons_of_mem v ha)
    cases hf : B.values.find? (fun o => o.binding = v.binding) with
    | none => simp [interpGo, hf, ih hrest]
    | some o =>
      have hb : o.binding = v.binding := by
        have := List.find?_some hf
        simpa using this
      have hsh : v.value.shape = o.value.shape :=
        h v (List.mem_cons_self v rest) o (List.mem_of_find?_eq_some hf) hb.symm
      obtain ⟨tv, htv⟩ :=
        Option.isSome_iff_exists.mp (interp_isSome_of_shape_eq _ _ t hsh)
      simp [interpGo, hf, ih hrest, BoundValue.interpolate, hb, htv]

/-- C5: the internal `.unwrap()` of `BoundValueCollection::interpolate` never
fires when every pair of entries with equal bindings carries same-variant
values (the call returns a collection, `isSome`); without that precondition
the operation panics — at the concrete pair
`{Position ↦ Real 0}` / `{Position ↦ Vector2 (0,0)}` the embedded call is
`none`, the embedding of a panic. -/
theorem interpolate_total_iff_shapes_match :
    (∀ (A B : BoundValueCollection) (t : ℚ), sameShapeMatched A B = true →
      (A.interpolate B t).isSome = true) ∧
    BoundValueCollection.interpolate ⟨[⟨.Position, .Real 0⟩]⟩
      ⟨[⟨.Position, .Vector2 ⟨0, 0⟩⟩]⟩ (1 / 2) = none := by
  constructor
  · intro A B t h
    unfold BoundValueCollection.interpolate
    rw [interpGo_eq B t A.values (sameShapeMatched_spec h)]
    rfl
  · rfl

/-- C5 witness: a same-shape matched pair interpolates to `some _`. -/
theorem interpolate_total_iff_shapes_match_witness :
    (BoundValueCollection.interpolate ⟨[⟨.Position, .Vector3 ⟨0, 0, 0⟩⟩]⟩
      ⟨[⟨.Position, .Vector3 ⟨1, 1, 1⟩⟩]⟩ 0).isSome = true :=
  interpolate_total_iff_shapes_match.1 _ _ 0 (by decide)

/-- C2 (counterexample): as universally stated the claim is false — at
`A = {Position ↦ Real 0}`, `B = {Position ↦ Vector3 (0,0,0)}` the call
`A.interpolate(B, 1/2)` does not return any collection: the per-entry
interpolation of the matched pair is `None` and the source's `.unwrap()`
panics (embedded as `none`). -/
theorem collection_interpolate_panics_on_shape_mismatch :
    BoundValueCollection.interpolate ⟨[⟨.Position, .Real 0⟩]⟩
      ⟨[⟨.Position, .Vector3 ⟨0, 0, 0⟩⟩]⟩ (1 / 2) = none := rfl

theorem interp_filterMap_bindings (B : BoundValueCollection) (t : ℚ)
    (vs : List BoundValue)
    (h : ∀ a ∈ vs, ∀ b ∈ B.values,
      a.binding = b.binding → a.value.shape = b.value.shape) :
    (vs.filterMap fun v =>
      (B.values.find? (fun o => o.binding = v.binding)).bind fun o =>
        (v.value.interpolate o.value t).map fun value =>
          BoundValue.mk v.binding value).map (fun v => v.binding) =
    (vs.filter fun v =>
      (B.values.find? (fun o => o.binding = v.binding)).isSome).map
        (fun v => v.binding) := by
  induction vs with
  | nil => rfl
  | cons v rest ih =>
    have hrest : ∀ a ∈ rest, ∀ b ∈ B.values,
        a.binding = b.binding → a.value.shape = b.value.shape :=
      fun a ha => h a (List.mem_cons_of_mem v ha)
    cases hf : B.values.find? (fun o => o.binding = v.binding) with
    | none => simp [hf, ih hrest]
    | some o =>
      have hb : o.binding = v.binding := by
        have := List.find?_some hf
        simpa using this
      have hsh : v.value.shape = o.value.shape :=
        h v (List.mem_cons_self v rest) o (List.mem_of_find?_eq_some hf) hb.symm
      obtain ⟨tv, htv⟩ :=
        Option.isSome_iff_exists.mp (interp_isSome_of_shape_eq _ _ t hsh)
      simp [hf, htv, ih hrest]

/-- C2 (amended): when any two entries with structurally equal bindings carry
same-variant values, `A.interpolate(B, t)` returns the collection containing
exactly those entries of `A` whose binding also occurs in `B` (the
`filterMap` keeps an entry iff `find?` succeeds, and then the inner `map` is
total by the precondition), in `A`'s order, each the interpolation of `A`'s
entry with the first equal-binding entry of `B`; entries whose binding occurs
in only one collection are dropped. The bindings of the result are exactly
the bindings of the entries of `A` that have a counterpart in `B`. -/
theorem collection_interpolate_characterization (A B : BoundValueCollection)
    (t : ℚ) (h : sameShapeMatched A B = true) :
    A.interpolate B t = some ⟨A.values.filterMap fun v =>
      (B.values.find? (fun o => o.binding = v.binding)).bind fun o =>
        (v.value.interpolate o.value t).map fun value =>
          { binding := v.binding, value := value }⟩ ∧
    (A.interpolate B t).map (fun C => C.values.map (fun v => v.binding)) =
      some ((A.values.filter fun v =>
        (B.values.find? (fun o => o.binding = v.binding)).isSome).map
          fun v => v.binding) := by
  have hspec := sameShapeMatched_spec h
  have hmain : A.interpolate B t = some ⟨A.values.filterMap fun v =>
      (B.values.find? (fun o => o.binding = v.binding)).bind fun o =>
        (v.value.interpolate o.value t).map fun value =>
          { binding := v.binding, value := value }⟩ := by
    unfold BoundValueCollection.interpolate
    rw [interpGo_eq B t A.values hspec]
    rfl
  refine ⟨hmain, ?_⟩
  rw [hmain]
  have hb := interp_filterMap_bindings B t A.values hspec
  simpa using hb

/-- C2 witness at the spec's example: `A = {Position, Scale}`,
`B = {Position, Rotation}` interpolates to a collection containing only the
Position entry. -/
theorem collection_interpolate_characterization_witness :
    BoundValueCollection.interpolate
      ⟨[⟨.Position, .Vector3 ⟨0, 0, 0⟩⟩, ⟨.Scale, .Vector3 ⟨1, 1, 1⟩⟩]⟩
      ⟨[⟨.Position, .Vector3 ⟨2, 2, 2⟩⟩, ⟨.Rotation, .UnitQuaternion ⟨0, 0, 0, 1⟩⟩]⟩
      (1 / 2) =
    some ⟨[⟨.Position, .Vector3 ⟨1, 1, 1⟩⟩]⟩ := by
  rw [(collection_interpolate_characterization
    ⟨[⟨.Position, .Vector3 ⟨0, 0, 0⟩⟩, ⟨.Scale, .Vector3 ⟨1, 1, 1⟩⟩]⟩
    ⟨[⟨.Position, .Vector3 ⟨2, 2, 2⟩⟩, ⟨.Rotation, .UnitQuaternion ⟨0, 0, 0, 1⟩⟩]⟩
    (1 / 2) (by decide)).1]
  norm_num [List.find?, List.filterMap_cons, TrackValue.interpolate, Vec3.lerp,
    lerpf,
    show decide (ValueBinding.Position = ValueBinding.Scale) = false from rfl,
    show decide (ValueBinding.Rotation = ValueBinding.Scale) = false from rfl]

/-! ## C4: `numeric_type_cast` -/

theorem castReal_none_iff (q : ℚ) (vt : ValueType) :
    castReal q vt = none ↔ vt.shape ≠ Shape.scalar := by
  cases vt <;> simp [castReal, ValueType.shape]

theorem castVec2_none_iff (v : Vec2) (vt : ValueType) :
    castVec2 v vt = none ↔ vt.shape ≠ Shape.vec2 := by
  cases vt <;> simp [castVec2, ValueType.shape]

theorem castVec3_none_iff (v : Vec3) (vt : ValueType) :
    castVec3 v vt = none ↔ vt.shape ≠ Shape.vec3 := by
  cases vt <;> simp [castVec3, ValueType.shape]

theorem castVec4_none_iff (v : Vec4) (vt : ValueType) :
    castVec4 v vt = none ↔ vt.shape ≠ Shape.vec4 := by
  cases vt <;> simp [castVec4, ValueType.shape]

theorem castQuat_none_iff (v : Quat) (vt : ValueType) :
    castQuat v vt = none ↔ vt.shape ≠ Shape.quat := by
  cases vt <;> simp [castQuat, ValueType.shape]

/-- C4: `numeric_type_cast` returns `None` exactly when the target tag's
shape (scalar vs Vector2/3/4 vs quaternion) differs from the value's variant
shape; boolean conversion is component-wise "value is not equal to 0";
float-to-integer conversion truncates towards zero for in-range inputs; and
the concrete cases: `Real 5.7 as I32 = 5`, `Real (-1) as Bool = true`,
`Real 0 as Bool = false`, `Vector3 (1,2,3) as Vector2F32 = None`. -/
theorem numeric_type_cast_characterization :
    (∀ (v : TrackValue) (vt : ValueType),
      v.numeric_type_cast vt = none ↔ vt.shape ≠ v.shape) ∧
    (∀ q : ℚ, TrackValue.numeric_type_cast (.Real q) .Bool =
      some (.scalar (.bool (decide (q ≠ 0))))) ∧
    (∀ v : Vec3, TrackValue.numeric_type_cast (.Vector3 v) .Vector3Bool =
      some (.vector3 (.bool (decide (v.x ≠ 0))) (.bool (decide (v.y ≠ 0)))
        (.bool (decide (v.z ≠ 0))))) ∧
    (∀ q : ℚ, -(2 ^ 31 : ℚ) ≤ q → q < (2 ^ 31 : ℚ) →
      TrackValue.numeric_type_cast (.Real q) .I32 =
        some (.scalar (.i32 (truncQ q)))) ∧
    TrackValue.numeric_type_cast (.Real (57 / 10)) .I32 =
      some (.scalar (.i32 5)) ∧
    TrackValue.numeric_type_cast (.Real (-1)) .Bool =
      some (.scalar (.bool true)) ∧
    TrackValue.numeric_type_cast (.Real 0) .Bool =
      some (.scalar (.bool false)) ∧
    TrackValue.numeric_type_cast (.Vector3 ⟨1, 2, 3⟩) .Vector2F32 = none := by
  refine ⟨?_, fun q => rfl, fun v => rfl, ?_,
    by norm_num [TrackValue.numeric_type_cast, castReal, toI32, satCast, truncQ],
    by norm_num [TrackValue.numeric_type_cast, castReal],
    by norm_num [TrackValue.numeric_type_cast, castReal],
    rfl⟩
  · intro v vt
    cases v with
    | Real q => simpa [TrackValue.numeric_type_cast, TrackValue.shape]
        using castReal_none_iff q vt
    | Vector2 w => simpa [TrackValue.numeric_type_cast, TrackValue.shape]
        using castVec2_none_iff w vt
    | Vector3 w => simpa [TrackValue.numeric_type_cast, TrackValue.shape]
        using castVec3_none_iff w vt
    | Vector4 w => simpa [TrackValue.numeric_type_cast, TrackValue.shape]
        using castVec4_none_iff w vt
    | UnitQuaternion w => simpa [TrackValue.numeric_type_cast, TrackValue.shape]
        using castQuat_none_iff w vt
  · intro q h1 h2
    have htr : toI32 q = truncQ q := by
      have hlo : -(2 ^ 31) ≤ truncQ q := by
        unfold truncQ
        split
        · have : ((-(2 ^ 31) : ℤ) : ℚ) ≤ q := by push_cast; linarith
          calc (-(2 ^ 31) : ℤ) = ⌈((-(2 ^ 31) : ℤ) : ℚ)⌉ := by
                rw [Int.ceil_intCast]
            _ ≤ ⌈q⌉ := Int.ceil_mono this
        · have : ((-(2 ^ 31) : ℤ) : ℚ) ≤ q := by push_cast; linarith
          exact Int.le_floor.mpr this
      have hhi : truncQ q ≤ 2 ^ 31 - 1 := by
        unfold truncQ
        split
        case isTrue hneg =>
          have : ⌈q⌉ ≤ (0 : ℤ) := Int.ceil_le.mpr (by push_cast; linarith)
          omega
        case isFalse hpos =>
          have : ⌊q⌋ < (2 ^ 31 : ℤ) := Int.floor_lt.mpr (by push_cast; linarith)
          omega
      unfold toI32 satCast
      rw [min_eq_right hhi, max_eq_right hlo]
    simp [TrackValue.numeric_type_cast, castReal, htr]

/-- C4 witness: the in-range truncation conjunct at `q = 5.7`, together with
the bounds that discharge its hypotheses. -/
theorem numeric_type_cast_characterization_witness :
    TrackValue.numeric_type_cast (.Real (57 / 10)) .I32 =
      some (.scalar (.i32 (truncQ (57 / 10)))) :=
  numeric_type_cast_characterization.2.2.2.1 (57 / 10)
    (by norm_num) (by norm_num)

/-! ## C1: `BoundValueCollection::apply` -/

theorem applyGo_append (vs ws : List BoundValue) (n : Node) :
    applyGo (vs ++ ws) n =
      ((applyGo ws (applyGo vs n).1).1,
       (applyGo vs n).2 ++ (applyGo ws (applyGo vs n).1).2) := by
  induction vs generalizing n with
  | nil => simp [applyGo]
  | cons v rest ih =>
    simp only [List.cons_append, applyGo, List.append_eq, ih, List.append_assoc]

/-- C1 (counterexample): the claim "an entry whose `numeric_type_cast`
returns `None` is logged" is false — `apply` on a collection holding exactly
one such entry (a `Real` value bound to a property declared `Vector2F32`)
terminates with an empty log and an unchanged node: the `if let Some(casted)`
in the source has no `else` arm, so the cast failure is skipped silently. -/
theorem apply_cast_failure_not_logged :
    castFailure badCastEntry = true ∧
    applySucceeds badCastEntry nodeA = false ∧
    BoundValueCollection.apply ⟨[badCastEntry]⟩ nodeA = (nodeA, []) :=
  ⟨rfl, rfl, rfl⟩

/-- C1 (amended): `apply` processes every entry and no panic escapes (it is a
total function): applying `vs ++ ws` applies `vs`, then applies `ws` to the
resulting node, concatenating the logs — so every entry is processed
regardless of earlier failures; a successful entry logs nothing; a failing
entry leaves the node unchanged and logs exactly one message — except that an
entry failing at `numeric_type_cast` (shape-mismatched declared tag) is
skipped silently with no log. -/
theorem apply_processes_every_entry :
    (∀ (vs ws : List BoundValue) (n : Node),
      BoundValueCollection.apply ⟨vs ++ ws⟩ n =
        ((BoundValueCollection.apply ⟨ws⟩ (BoundValueCollection.apply ⟨vs⟩ n).1).1,
         (BoundValueCollection.apply ⟨vs⟩ n).2 ++
           (BoundValueCollection.apply ⟨ws⟩
             (BoundValueCollection.apply ⟨vs⟩ n).1).2)) ∧
    (∀ (v : BoundValue) (n : Node), applySucceeds v n = true →
      (applyOne v n).2 = []) ∧
    (∀ (v : BoundValue) (n : Node), applySucceeds v n = false →
      (applyOne v n).1 = n ∧
      (applyOne v n).2.length = if castFailure v then 0 else 1) := by
  refine ⟨fun vs ws n => applyGo_append vs ws n, ?_, ?_⟩
  · intro v n h
    obtain ⟨b, val⟩ := v
    cases b with
    | Position => cases val <;> simp_all [applyOne, applySucceeds]
    | Scale => cases val <;> simp_all [applyOne, applySucceeds]
    | Rotation => cases val <;> simp_all [applyOne, applySucceeds]
    | Property name vt =>
      cases hc : val.numeric_type_cast vt with
      | none => simp [applySucceeds, hc] at h
      | some c =>
        cases hs : setFieldByPath n.props name c with
        | ok p => simp [applyOne, hc, hs]
        | error e => simp [applySucceeds, hc, hs] at h
  · intro v n h
    obtain ⟨b, val⟩ := v
    cases b with
    | Position => cases val <;> simp_all [applyOne, applySucceeds, castFailure]
    | Scale => cases val <;> simp_all [applyOne, applySucceeds, castFailure]
    | Rotation => cases val <;> simp_all [applyOne, applySucceeds, castFailure]
    | Property name vt =>
      cases hc : val.numeric_type_cast vt with
      | none => simp [applyOne, castFailure, hc]
      | some c =>
        cases hs : setFieldByPath n.props name c with
        | ok p => simp [applySucceeds, hc, hs] at h
        | error e =>
          cases e <;> simp [applyOne, castFailure, hc, hs]

/-- C1 witness: a succeeding Position entry logs nothing; a Position entry
with a non-Vector3 value leaves the node unchanged and logs exactly one
message. -/
theorem apply_processes_every_entry_witness :
    (applyOne ⟨.Position, .Vector3 ⟨1, 2, 3⟩⟩ nodeA).2 = [] ∧
    ((applyOne ⟨.Position, .Real 0⟩ nodeA).1 = nodeA ∧
      (applyOne ⟨.Position, .Real 0⟩ nodeA).2.length =
        if castFailure ⟨.Position, .Real 0⟩ then 0 else 1) :=
  ⟨apply_processes_every_entry.2.1 ⟨.Position, .Vector3 ⟨1, 2, 3⟩⟩ nodeA rfl,
   apply_processes_every_entry.2.2 ⟨.Position, .Real 0⟩ nodeA rfl⟩

/-! ## C7: `ModifyTerrainHeightCommand` swap symmetry -/

theorem swapZip_all_eq (chunks : List Chunk) (old new : List (List ℚ))
    (h1 : chunks.length = old.length) (h2 : old.length = new.length) :
    swapZip chunks old new = (new.map Chunk.mk, new, old) := by
  induction chunks generalizing old new with
  | nil =>
    cases old with
    | nil =>
      cases new with
      | nil => rfl
      | cons _ _ => simp at h2
    | cons _ _ => simp at h1
  | cons c cs ih =>
    cases old with
    | nil => simp at h1
    | cons o os =>
      cases new with
      | nil => simp at h2
      | cons nn ns =>
        simp [swapZip, Chunk.set_heightmap,
          ih os ns (by simpa using h1) (by simpa using h2)]

/-- C7: `execute` and `revert` of `ModifyTerrainHeightCommand` both invoke
the same `swap` primitive, which installs each chunk's "new"-slot buffer and
then swaps the old/new slots; on a terrain whose chunk heightmaps equal the
command's old snapshots (and whose chunk count matches the snapshots),
`execute` makes the terrain read the new snapshots (leaving the command
`⟨new, old⟩`), the following `revert` restores the old values (command back
to `⟨old, new⟩`), and a further `execute` reinstalls the new values. -/
theorem modify_height_swap_roundtrip (old new : List (List ℚ))
    (chunks : List Chunk) (h1 : chunks.length = old.length)
    (h2 : old.length = new.length)
    (_h3 : chunks.map Chunk.heightmap = old) :
    (∀ (cmd : ModifyTerrainHeightCommand) (cs : List Chunk),
      cmd.execute cs = cmd.swap cs ∧ cmd.revert cs = cmd.swap cs) ∧
    (ModifyTerrainHeightCommand.mk old new).execute chunks =
      (new.map Chunk.mk, ⟨new, old⟩) ∧
    (ModifyTerrainHeightCommand.mk new old).revert (new.map Chunk.mk) =
      (old.map Chunk.mk, ⟨old, new⟩) ∧
    (ModifyTerrainHeightCommand.mk old new).execute (old.map Chunk.mk) =
      (new.map Chunk.mk, ⟨new, old⟩) := by
  refine ⟨fun cmd cs => ⟨rfl, rfl⟩, ?_, ?_, ?_⟩
  · unfold ModifyTerrainHeightCommand.execute ModifyTerrainHeightCommand.swap
    rw [swapZip_all_eq chunks old new h1 h2]
  · unfold ModifyTerrainHeightCommand.revert ModifyTerrainHeightCommand.swap
    rw [swapZip_all_eq (new.map Chunk.mk) new old (by simp) h2.symm]
  · unfold ModifyTerrainHeightCommand.execute ModifyTerrainHeightCommand.swap
    rw [swapZip_all_eq (old.map Chunk.mk) old new (by simp) h2]

/-- C7 witness at the spec's example: terrain with 2 chunks and heights
`[[1,2],[3,4]]`, new heights `[[9,9],[8,8]]` — `execute` installs the new
heights and swaps the snapshots. -/
theorem modify_height_swap_roundtrip_witness :
    (ModifyTerrainHeightCommand.mk [[1, 2], [3, 4]] [[9, 9], [8, 8]]).execute
      [⟨[1, 2]⟩, ⟨[3, 4]⟩] =
    ([⟨[9, 9]⟩, ⟨[8, 8]⟩], ⟨[[9, 9], [8, 8]], [[1, 2], [3, 4]]⟩) :=
  (modify_height_swap_roundtrip [[1, 2], [3, 4]] [[9, 9], [8, 8]]
    [⟨[1, 2]⟩, ⟨[3, 4]⟩] rfl rfl rfl).2.1

/-! ## C8: `AddTerrainLayerCommand` ownership alternation -/

/-- C8: under strict execute/revert alternation from the unexecuted state
(`AddTerrainLayerCommand.new` is the instance with `layer = some _`,
`masks = []`; the theorem covers any held layer and mask list), no step
panics, and after an even number of steps the command owns the layer and
masks while the terrain is unchanged, after an odd number the terrain's layer
list ends with the appended layer and masks while the command holds neither —
so at every reachable state exactly one of command and terrain owns them. -/
theorem add_layer_alternation_ownership (t0 : Terrain) (l : Layer)
    (m : List Texture) (n : ℕ) :
    ∃ c t, altRun (⟨some l, m⟩, t0) n = some (c, t) ∧
      ((n % 2 = 0 ∧ c = ⟨some l, m⟩ ∧ t = t0) ∨
       (n % 2 = 1 ∧ c = ⟨none, []⟩ ∧
         t = ⟨t0.layers ++ [(l, m)], t0.chunks⟩)) := by
  induction n with
  | zero => exact ⟨⟨some l, m⟩, t0, rfl, Or.inl ⟨rfl, rfl, rfl⟩⟩
  | succ k ih =>
    obtain ⟨c, t, hrun, hcase⟩ := ih
    rcases hcase with ⟨hk, hc, ht⟩ | ⟨hk, hc, ht⟩
    · refine ⟨⟨none, []⟩, ⟨t0.layers ++ [(l, m)], t0.chunks⟩, ?_,
        Or.inr ⟨by omega, rfl, rfl⟩⟩
      simp [altRun, hrun, hk, hc, ht, AddTerrainLayerCommand.execute,
        Terrain.add_layer]
    · refine ⟨⟨some l, m⟩, t0, ?_, Or.inl ⟨by omega, rfl, rfl⟩⟩
      simp [altRun, hrun, hk, hc, ht, AddTerrainLayerCommand.revert,
        Terrain.pop_layer, List.getLast?_concat, List.dropLast_concat]

end Fyrox
